import Mathlib

/-!
Shallow embedding of the shared-summary MCP server core
(create / list-filter / update / delete over HubSpot note engagements).

Strings are modelled as `List Char` (`Str`).  JavaScript string values that
may be `undefined` are modelled as `Option Str`; JS truthiness of a string
(`undefined` and `""` are falsy) is `jsTruthy`, of a number (`0` is falsy)
is `jsNumTruthy`.  Timestamps are millisecond epoch values (`Int`), and the
server's local-time views (`getDay`, `getHours`, `getMinutes`) are taken at
an explicit local offset `off` in milliseconds, per the ECMAScript clauses
`Day(t) = floor(t / msPerDay)`, `WeekDay(t) = (Day(t) + 4) mod 7`,
`HourFromTime`, `MinFromTime` applied to `LocalTime(t) = t + off`.
-/

abbrev Str := List Char

/-- ASCII lowercasing, modelling `String.prototype.toLowerCase` on the
ASCII inputs the handlers compare (day names, query keywords). -/
def toLowerStr (s : Str) : Str := s.map Char.toLower

/-- JS `<` on strings: lexicographic comparison by code unit. -/
def strLt : Str → Str → Bool
  | [], [] => false
  | [], _ :: _ => true
  | _ :: _, [] => false
  | a :: as, b :: bs =>
    if a.toNat < b.toNat then true
    else if b.toNat < a.toNat then false
    else strLt as bs

/-- JS `a <= b` on strings, i.e. `¬ (b < a)` in the total lexicographic order. -/
def strLe (a b : Str) : Bool := !(strLt b a)

/-- JS `hay.includes(needle)`: `needle` occurs contiguously in `hay`. -/
def strIncludes (needle : Str) : Str → Bool
  | [] => needle.isEmpty
  | c :: cs => needle.isPrefixOf (c :: cs) || strIncludes needle cs

/-- `a.toLowerCase().includes(b.toLowerCase())`: case-insensitive substring test. -/
def containsCI (hay needle : Str) : Bool :=
  strIncludes (toLowerStr needle) (toLowerStr hay)

/-- JS string truthiness: `undefined` and `""` are falsy. -/
def jsTruthy (o : Option Str) : Bool :=
  match o with
  | none => false
  | some s => !s.isEmpty

/-- The string value of a possibly-`undefined` JS string. -/
def optStr (o : Option Str) : Str := o.getD []

/-- JS number truthiness: `0` is falsy. -/
def jsNumTruthy (o : Option Int) : Bool :=
  match o with
  | none => false
  | some n => n != 0

/-! ### Body Codec

`create` builds the note body as the template literal
`Title: ${title}\nSummary: ${summary}\nAuthor: ${author}`; `update` parses
it back with `currentBody.split("\n")` and per-line
`line.startsWith(label) → line.replace(label, "")`. -/

def titleLabel : Str := ['T', 'i', 't', 'l', 'e', ':', ' ']

def summaryLabel : Str := ['S', 'u', 'm', 'm', 'a', 'r', 'y', ':', ' ']

def authorLabel : Str := ['A', 'u', 't', 'h', 'o', 'r', ':', ' ']

/-- `noteBody` of `createSharedSummary`:
the blob `Title: {t}\nSummary: {s}\nAuthor: {a}` (braces meaning splices). -/
def encodeBody (t s a : Str) : Str :=
  titleLabel ++ t ++ '\n' :: summaryLabel ++ s ++ '\n' :: authorLabel ++ a

/-- JS `s.replace(pat, "")` with a string pattern: remove the first
occurrence of `pat`, if any. -/
def replaceFirst (pat : Str) : Str → Str
  | [] => []
  | c :: cs =>
    if pat.isPrefixOf (c :: cs) then (c :: cs).drop pat.length
    else c :: replaceFirst pat cs

/-- The three decoded fields of a note body. -/
structure Fields where
  title : Str
  summary : Str
  author : Str
deriving DecidableEq

/-- One iteration of `updateSharedSummary`'s `lines.forEach` parser:
an if/else-if chain on the three label prefixes, other lines ignored. -/
def decodeStep (f : Fields) (line : Str) : Fields :=
  if titleLabel.isPrefixOf line then
    { f with title := replaceFirst titleLabel line }
  else if summaryLabel.isPrefixOf line then
    { f with summary := replaceFirst summaryLabel line }
  else if authorLabel.isPrefixOf line then
    { f with author := replaceFirst authorLabel line }
  else f

/-- `updateSharedSummary`'s parse of `currentBody`: split on newline, fold
the label parser over the lines, all fields starting at `""`. -/
def decodeBody (blob : Str) : Fields :=
  (blob.splitOn '\n').foldl decodeStep ⟨[], [], []⟩

/-- A line the parser reacts to: it starts with one of the three labels. -/
def isLabelLine (l : Str) : Bool :=
  titleLabel.isPrefixOf l || summaryLabel.isPrefixOf l || authorLabel.isPrefixOf l

/-- The merge rule as the specification words it: for each field
independently, the merged value is the caller-supplied value when that
value is present and non-empty, and the previous value otherwise. -/
def mergeFieldSpec (supplied : Option Str) (prev : Str) : Str :=
  match supplied with
  | none => prev
  | some v => if v = [] then prev else v

/-- The seven lowercase day names recognised by the `dayMap`. -/
def validDayNames : List Str :=
  ["sunday".data, "monday".data, "tuesday".data, "wednesday".data,
   "thursday".data, "friday".data, "saturday".data]

/-! ### Time views of a millisecond timestamp -/

def msPerDay : Int := 86400000

def msPerHour : Int := 3600000

def msPerMinute : Int := 60000

/-- ECMAScript `WeekDay(t) = (Day(t) + 4) modulo 7` at local time `ts + off`:
the value of `new Date(ts).getDay()` (0 = Sunday .. 6 = Saturday). -/
def weekdayLocal (off ts : Int) : Int :=
  (Int.fdiv (ts + off) msPerDay + 4).emod 7

/-- `new Date(ts).getHours()` at local offset `off`. -/
def hourLocal (off ts : Int) : Int :=
  (Int.fdiv (ts + off) msPerHour).emod 24

/-- `new Date(ts).getMinutes()` at local offset `off`. -/
def minuteLocal (off ts : Int) : Int :=
  (Int.fdiv (ts + off) msPerMinute).emod 60

/-- `n.toString().padStart(2, "0")` for the small non-negative numbers
produced by `getHours` / `getMinutes`. -/
def pad2 (n : Int) : Str :=
  let ds := Nat.toDigits 10 n.toNat
  if n.toNat < 10 then '0' :: ds else ds

/-- The template literal `${pad(getHours())}:${pad(getMinutes())}` of the
timeRange filter. -/
def hhmmLocal (off ts : Int) : Str :=
  pad2 (hourLocal off ts) ++ ':' :: pad2 (minuteLocal off ts)

/-- Civil (proleptic Gregorian) date from a day number relative to
1970-01-01, as computed by ECMAScript date decomposition:
`(year, month, day)` with month in 1..12. -/
def civilFromDays (z : Int) : Int × Nat × Nat :=
  let z4 := z + 719468
  let era : Int := Int.fdiv z4 146097
  let doe : Nat := (z4 - era * 146097).toNat
  let yoe : Nat := (doe - doe / 1460 + doe / 36524 - doe / 146096) / 365
  let doy : Nat := doe - (365 * yoe + yoe / 4 - yoe / 100)
  let mp : Nat := (5 * doy + 2) / 153
  let d : Nat := doy - (153 * mp + 2) / 5 + 1
  let m : Nat := if mp < 10 then mp + 3 else mp - 9
  (era * 400 + yoe + (if m ≤ 2 then 1 else 0), m, d)

/-- Decimal digits of `n` left-padded with zeros to 4 places, for the year
field of `toISOString` (years 0..9999; expanded-year formats are outside
the timestamps the handlers see). -/
def pad4 (n : Int) : Str :=
  let ds := Nat.toDigits 10 n.toNat
  List.replicate (4 - ds.length) '0' ++ ds

/-- `new Date(ts).toISOString().split("T")[0]`: the `YYYY-MM-DD` UTC
calendar date of the timestamp. -/
def dateStringUTC (ts : Int) : Str :=
  let c := civilFromDays (Int.fdiv ts msPerDay)
  pad4 c.1 ++ '-' :: pad2 (Int.ofNat c.2.1) ++ '-' :: pad2 (Int.ofNat c.2.2)

/-! ### Records and filter criteria -/

/-- One page entry as the handlers read it: `record.engagement.id`,
`record.engagement.timestamp`, `record.metadata.body`. -/
structure RawRecord where
  id : Str
  timestamp : Int
  body : Str
deriving DecidableEq

/-- The `timeRange` argument `{ start, end }`. -/
structure TimeRange where
  start : Str
  stop : Str
deriving DecidableEq

/-- The optional filter arguments shared by `get_summaries` and
`delete_shared_summary`. -/
structure Criteria where
  date : Option Str
  dayOfWeek : Option Str
  limit : Option Int
  timeRange : Option TimeRange
deriving DecidableEq

/-! ### Error messages thrown by the handlers -/

def limitErrMsg : Str := "Limit must be a positive number greater than 0".data

def invalidDayMsg (d : Str) : Str := "Invalid dayOfWeek provided: ".data ++ d

def noQueryMatchMsg : Str := "No summary found matching the provided query.".data

def noFilterMatchMsg : Str := "No summary found matching the provided filters.".data

def missingTargetMsg : Str :=
  "Please provide an Engagement ID or a search query to locate the summary note.".data

/-- Message carried by the modelled failure of the by-id fetch when the
store holds no record with the target id (the gateway's HTTP error). -/
def getByIdFailMsg : Str := "HTTP-Code: 404".data

/-! ### Filter Engine

`get_summaries` and the no-id branch of `delete_shared_summary` contain the
same date / dayOfWeek / timeRange filter pipeline (the code is duplicated
verbatim in the source); `applyFilters` embeds that shared pipeline. -/

/-- The `dayMap` lookup `dayMap[dayOfWeek.toLowerCase()]`. -/
def dayMapResolve (s : Str) : Option Int :=
  if s = "sunday".data then some 0
  else if s = "monday".data then some 1
  else if s = "tuesday".data then some 2
  else if s = "wednesday".data then some 3
  else if s = "thursday".data then some 4
  else if s = "friday".data then some 5
  else if s = "saturday".data then some 6
  else none

/-- The timeRange predicate:
`currentTime >= timeRange.start && currentTime <= timeRange.end`. -/
def timeKeep (off : Int) (tr : TimeRange) (r : RawRecord) : Bool :=
  strLe tr.start (hhmmLocal off r.timestamp) && strLe (hhmmLocal off r.timestamp) tr.stop

/-- The guarded date step: `if (date) results = results.filter(...)`. -/
def dateStep (c : Criteria) (page : List RawRecord) : List RawRecord :=
  if jsTruthy c.date then
    page.filter (fun r => decide (dateStringUTC r.timestamp = optStr c.date))
  else page

/-- The guarded timeRange step:
`if (timeRange && timeRange.start && timeRange.end) results = results.filter(...)`. -/
def timeStep (off : Int) (c : Criteria) (l : List RawRecord) : List RawRecord :=
  match c.timeRange with
  | some tr => if !tr.start.isEmpty && !tr.stop.isEmpty then l.filter (timeKeep off tr) else l
  | none => l

/-- The three guarded filter steps of the engine, in source order:
date, then dayOfWeek (with its validation), then timeRange. -/
def applyFilters (off : Int) (page : List RawRecord) (c : Criteria) :
    Except Str (List RawRecord) :=
  let r1 := dateStep c page
  let r2e : Except Str (List RawRecord) :=
    if jsTruthy c.dayOfWeek then
      match dayMapResolve (toLowerStr (optStr c.dayOfWeek)) with
      | none => .error (invalidDayMsg (optStr c.dayOfWeek))
      | some target =>
        .ok (r1.filter (fun r => decide (weekdayLocal off r.timestamp = target)))
    else .ok r1
  match r2e with
  | .error e => .error e
  | .ok r2 => .ok (timeStep off c r2)

/-- Descending-timestamp comparison: `a` may come before `b` under the
comparator `(a, b) => b.engagement.timestamp - a.engagement.timestamp`. -/
def tsGE (a b : RawRecord) : Prop := b.timestamp ≤ a.timestamp

instance : DecidableRel tsGE := fun a b => Int.decLe b.timestamp a.timestamp

/-- `results.sort((a, b) => b.engagement.timestamp - a.engagement.timestamp)`:
ES2019 `Array.prototype.sort` is stable, so its result is the stable
descending order realised by insertion sort on `tsGE`. -/
def sortDesc (l : List RawRecord) : List RawRecord := l.insertionSort tsGE

/-- `getSummaries`: filter pipeline, descending sort, then the limit logic
`if (limit && limit > 0) slice else if (limit && limit < 1) throw`. -/
def getSummariesCore (off : Int) (page : List RawRecord) (c : Criteria) :
    Except Str (List RawRecord) :=
  match applyFilters off page c with
  | .error e => .error e
  | .ok kept =>
    let sorted := sortDesc kept
    match c.limit with
    | some l =>
      if l ≠ 0 ∧ l > 0 then .ok (sorted.take l.toNat)
      else if l ≠ 0 ∧ l < 1 then .error limitErrMsg
      else .ok sorted
    | none => .ok sorted

/-- The store interactions an operation issues, in order. -/
inductive StoreCall where
  | fetchPage
  | getById (id : Str)
  | putBody (id : Str) (body : Str)
  | deleteById (id : Str)
deriving DecidableEq

/-- `handleDeleteSharedSummary`: use an explicit id directly, otherwise
fetch the page, run the filter pipeline, sort, default the limit to 1,
take the slice, and delete the first candidate; empty slice throws before
any delete call.  The external DELETE round trip itself is modelled as
succeeding (its failure is the gateway's, outside the resolution logic). -/
def deleteSharedSummary (off : Int) (store : List RawRecord) (id? : Option Str)
    (c : Criteria) : Except Str Str × List StoreCall :=
  if jsTruthy id? then
    (.ok (optStr id?), [.deleteById (optStr id?)])
  else
    match applyFilters off store c with
    | .error e => (.error e, [.fetchPage])
    | .ok kept =>
      let sorted := sortDesc kept
      let n : Int := if jsNumTruthy c.limit ∧ c.limit.getD 0 > 0 then c.limit.getD 0 else 1
      match sorted.take n.toNat with
      | [] => (.error noFilterMatchMsg, [.fetchPage])
      | r :: _ => (.ok r.id, [.fetchPage, .deleteById r.id])

/-- The target-resolution prefix of `updateSharedSummary`:
`let targetId = id; if (!targetId && query) { fetch page, filter by
case-insensitive body match, sort descending, throw if empty, take the
first }; if (!targetId) throw`. -/
def resolveUpdateTargetId (store : List RawRecord) (id? query? : Option Str) :
    Except Str Str × List StoreCall :=
  if !(jsTruthy id?) && jsTruthy query? then
    let candidates := sortDesc (store.filter (fun r => containsCI r.body (optStr query?)))
    match candidates with
    | [] => (.error noQueryMatchMsg, [.fetchPage])
    | c :: _ => (if c.id.isEmpty then .error missingTargetMsg else .ok c.id, [.fetchPage])
  else if !(jsTruthy id?) then (.error missingTargetMsg, [])
  else (.ok (optStr id?), [])

/-- JS `a || b` on a possibly-`undefined` string `a`. -/
def jsOr (o : Option Str) (dflt : Str) : Str :=
  if jsTruthy o then optStr o else dflt

/-- `updateSharedSummary`: resolve the target id, fetch the record by id,
parse its body, merge each field with `provided || current`, re-encode,
and PUT the new body. -/
def updateSharedSummary (store : List RawRecord) (id? query? title? summary? author? :
    Option Str) : Except Str Str × List StoreCall :=
  match resolveUpdateTargetId store id? query? with
  | (.error e, calls) => (.error e, calls)
  | (.ok tid, calls) =>
    match store.find? (fun r => decide (r.id = tid)) with
    | none => (.error getByIdFailMsg, calls ++ [.getById tid])
    | some found =>
      let cur := decodeBody found.body
      let newTitle := jsOr title? cur.title
      let newSummary := jsOr summary? cur.summary
      let newAuthor := jsOr author? cur.author
      (.ok tid, calls ++ [.getById tid, .putBody tid (encodeBody newTitle newSummary newAuthor)])

/-- Effect of a call sequence on the store: only delete calls mutate it. -/
def applyDeleteCalls (store : List RawRecord) (calls : List StoreCall) : List RawRecord :=
  calls.foldl (fun s c =>
    match c with
    | .deleteById i => s.filter (fun r => !decide (r.id = i))
    | _ => s) store

/-! ### Properties of the descending stable sort -/

instance : IsTotal RawRecord tsGE :=
  ⟨fun a b => le_total b.timestamp a.timestamp⟩

instance : IsTrans RawRecord tsGE :=
  ⟨fun _ _ _ hab hbc => le_trans hbc hab⟩

theorem sortDesc_mem {x : RawRecord} {l : List RawRecord} : x ∈ sortDesc l ↔ x ∈ l :=
  List.mem_insertionSort tsGE

theorem sortDesc_sorted (l : List RawRecord) : (sortDesc l).Sorted tsGE :=
  List.sorted_insertionSort tsGE l

theorem sortDesc_length (l : List RawRecord) : (sortDesc l).length = l.length :=
  List.length_insertionSort tsGE l

theorem sortDesc_ne_nil {l : List RawRecord} (h : l ≠ []) : sortDesc l ≠ [] := by
  intro hs
  exact h (List.eq_nil_of_length_eq_zero (by simpa [hs] using (sortDesc_length l).symm))

theorem sortDesc_head_max {l : List RawRecord} {c : RawRecord} {rest : List RawRecord}
    (h : sortDesc l = c :: rest) : c ∈ l ∧ ∀ r ∈ l, r.timestamp ≤ c.timestamp := by
  constructor
  · exact sortDesc_mem.mp (h ▸ List.mem_cons_self c rest)
  · intro r hr
    have hr2 : r ∈ sortDesc l := sortDesc_mem.mpr hr
    rw [h] at hr2
    rcases List.mem_cons.mp hr2 with rfl | hr3
    · exact le_refl _
    · have hs := sortDesc_sorted l
      rw [h] at hs
      exact (List.pairwise_cons.mp hs).1 r hr3

theorem filter_orderedInsert_eq (t : Int) (x : RawRecord) (l : List RawRecord)
    (hx : x.timestamp = t) :
    (List.orderedInsert tsGE x l).filter (fun r => decide (r.timestamp = t)) =
      x :: l.filter (fun r => decide (r.timestamp = t)) := by
  induction l with
  | nil => simp [hx]
  | cons y l ih =>
    by_cases hle : tsGE x y
    · simp [List.orderedInsert, hle, hx]
    · have hy : y.timestamp ≠ t := by
        intro hyt
        exact hle (by simp [tsGE, hx, hyt])
      simp [List.orderedInsert, hle, hy, ih]

theorem filter_orderedInsert_ne (t : Int) (x : RawRecord) (l : List RawRecord)
    (hx : x.timestamp ≠ t) :
    (List.orderedInsert tsGE x l).filter (fun r => decide (r.timestamp = t)) =
      l.filter (fun r => decide (r.timestamp = t)) := by
  induction l with
  | nil => simp [hx]
  | cons y l ih =>
    by_cases hle : tsGE x y
    · simp [List.orderedInsert, hle, hx]
    · simp [List.orderedInsert, hle, List.filter_cons, ih]

/-- Stability of the descending sort: among records with any one timestamp,
the sorted list preserves the original relative order. -/
theorem sortDesc_filter_ts (t : Int) (l : List RawRecord) :
    (sortDesc l).filter (fun r => decide (r.timestamp = t)) =
      l.filter (fun r => decide (r.timestamp = t)) := by
  induction l with
  | nil => rfl
  | cons x l ih =>
    show (List.orderedInsert tsGE x (sortDesc l)).filter _ = _
    by_cases hx : x.timestamp = t
    · rw [filter_orderedInsert_eq t x (sortDesc l) hx, ih]
      simp [hx]
    · rw [filter_orderedInsert_ne t x (sortDesc l) hx, ih]
      simp [hx]

/-! ### Body Codec lemmas -/

theorem isPrefixOf_append (l₁ l₂ : Str) : l₁.isPrefixOf (l₁ ++ l₂) = true := by
  rw [List.isPrefixOf_iff_prefix]
  exact List.prefix_append l₁ l₂

theorem isPrefixOf_cons_ne {a b : Char} (as bs : Str) (h : a ≠ b) :
    (a :: as).isPrefixOf (b :: bs) = false := by
  simp [List.isPrefixOf, h]

theorem replaceFirst_of_isPrefixOf {pat : Str} {c : Char} {cs : Str}
    (h : pat.isPrefixOf (c :: cs) = true) :
    replaceFirst pat (c :: cs) = (c :: cs).drop pat.length := by
  simp only [replaceFirst, h, if_true]

theorem replaceFirst_append (pat t : Str) (hp : pat ≠ []) :
    replaceFirst pat (pat ++ t) = t := by
  cases pat with
  | nil => exact absurd rfl hp
  | cons c cs =>
    have h := isPrefixOf_append (c :: cs) t
    rw [List.cons_append] at h
    rw [List.cons_append, replaceFirst_of_isPrefixOf h, ← List.cons_append, List.drop_left]

theorem encodeBody_eq_intercalate (t s a : Str) :
    encodeBody t s a =
      List.intercalate ['\n'] [titleLabel ++ t, summaryLabel ++ s, authorLabel ++ a] := by
  simp [encodeBody, List.intercalate, List.intersperse]

theorem splitOn_encodeBody (t s a : Str) (ht : '\n' ∉ t) (hs : '\n' ∉ s) (ha : '\n' ∉ a) :
    (encodeBody t s a).splitOn '\n' =
      [titleLabel ++ t, summaryLabel ++ s, authorLabel ++ a] := by
  rw [encodeBody_eq_intercalate]
  apply List.splitOn_intercalate
  · intro l hl
    simp only [List.mem_cons, List.not_mem_nil, or_false] at hl
    rcases hl with rfl | rfl | rfl
    · simp [titleLabel, ht]
    · simp [summaryLabel, hs]
    · simp [authorLabel, ha]
  · simp

theorem decodeStep_title (f : Fields) (t : Str) :
    decodeStep f (titleLabel ++ t) = { f with title := t } := by
  simp [decodeStep, isPrefixOf_append, replaceFirst_append titleLabel t (by decide)]

theorem decodeStep_summary (f : Fields) (s : Str) :
    decodeStep f (summaryLabel ++ s) = { f with summary := s } := by
  have h1 : titleLabel.isPrefixOf (summaryLabel ++ s) = false :=
    isPrefixOf_cons_ne _ _ (by decide)
  simp [decodeStep, h1, isPrefixOf_append, replaceFirst_append summaryLabel s (by decide)]

theorem decodeStep_author (f : Fields) (a : Str) :
    decodeStep f (authorLabel ++ a) = { f with author := a } := by
  have h1 : titleLabel.isPrefixOf (authorLabel ++ a) = false :=
    isPrefixOf_cons_ne _ _ (by decide)
  have h2 : summaryLabel.isPrefixOf (authorLabel ++ a) = false :=
    isPrefixOf_cons_ne _ _ (by decide)
  simp [decodeStep, h1, h2, isPrefixOf_append, replaceFirst_append authorLabel a (by decide)]

/-- C2 (claim theorem): decoding the blob produced by `create` from
newline-free `title`, `summary`, `author` recovers exactly those fields:
`decode(encode(t, s, a)) == (t, s, a)`. -/
theorem decode_encode_roundTrip (t s a : Str) (ht : '\n' ∉ t) (hs : '\n' ∉ s)
    (ha : '\n' ∉ a) : decodeBody (encodeBody t s a) = ⟨t, s, a⟩ := by
  unfold decodeBody
  rw [splitOn_encodeBody t s a ht hs ha]
  simp [decodeStep_title, decodeStep_summary, decodeStep_author]

/-- C2 witness: the round trip evaluated at concrete fields. -/
theorem decode_encode_roundTrip_witness :
    decodeBody (encodeBody ['T', '1'] ['S', '2'] ['A', '3']) = ⟨['T', '1'], ['S', '2'], ['A', '3']⟩ :=
  decode_encode_roundTrip ['T', '1'] ['S', '2'] ['A', '3'] (by decide) (by decide) (by decide)

theorem decodeStep_skip (f : Fields) (l : Str) (h : isLabelLine l = false) :
    decodeStep f l = f := by
  simp only [isLabelLine, Bool.or_eq_false_iff] at h
  simp [decodeStep, h.1.1, h.1.2, h.2]

theorem foldl_decodeStep_filter (lines : List Str) (f : Fields) :
    lines.foldl decodeStep f = (lines.filter isLabelLine).foldl decodeStep f := by
  induction lines generalizing f with
  | nil => rfl
  | cons l ls ih =>
    cases h : isLabelLine l with
    | true => simp [List.filter_cons, h, ih]
    | false => simp [List.filter_cons, h, decodeStep_skip f l h, ih]

theorem foldl_title_eq (lines : List Str) (f : Fields)
    (h : ∀ l ∈ lines, titleLabel.isPrefixOf l = false) :
    (lines.foldl decodeStep f).title = f.title := by
  induction lines generalizing f with
  | nil => rfl
  | cons l ls ih =>
    have hl := h l (List.mem_cons_self l ls)
    have hstep : (decodeStep f l).title = f.title := by
      unfold decodeStep
      split_ifs <;> simp_all
    rw [List.foldl_cons, ih _ (fun x hx => h x (List.mem_cons_of_mem l hx)), hstep]

theorem foldl_summary_eq (lines : List Str) (f : Fields)
    (h : ∀ l ∈ lines, summaryLabel.isPrefixOf l = false) :
    (lines.foldl decodeStep f).summary = f.summary := by
  induction lines generalizing f with
  | nil => rfl
  | cons l ls ih =>
    have hl := h l (List.mem_cons_self l ls)
    have hstep : (decodeStep f l).summary = f.summary := by
      unfold decodeStep
      split_ifs <;> simp_all
    rw [List.foldl_cons, ih _ (fun x hx => h x (List.mem_cons_of_mem l hx)), hstep]

theorem foldl_author_eq (lines : List Str) (f : Fields)
    (h : ∀ l ∈ lines, authorLabel.isPrefixOf l = false) :
    (lines.foldl decodeStep f).author = f.author := by
  induction lines generalizing f with
  | nil => rfl
  | cons l ls ih =>
    have hl := h l (List.mem_cons_self l ls)
    have hstep : (decodeStep f l).author = f.author := by
      unfold decodeStep
      split_ifs <;> simp_all
    rw [List.foldl_cons, ih _ (fun x hx => h x (List.mem_cons_of_mem l hx)), hstep]

/-- C9 (claim theorem): decoding is total and lenient.  `decodeBody` is a
total function on every blob (it never fails by construction); a field
whose label line is absent decodes to the empty string; and lines that
start with none of the three labels are ignored: dropping them from the
split does not change the decoded fields. -/
theorem decode_lenient (blob : Str) :
    ((∀ l ∈ blob.splitOn '\n', titleLabel.isPrefixOf l = false) →
      (decodeBody blob).title = []) ∧
    ((∀ l ∈ blob.splitOn '\n', summaryLabel.isPrefixOf l = false) →
      (decodeBody blob).summary = []) ∧
    ((∀ l ∈ blob.splitOn '\n', authorLabel.isPrefixOf l = false) →
      (decodeBody blob).author = []) ∧
    decodeBody blob = ((blob.splitOn '\n').filter isLabelLine).foldl decodeStep ⟨[], [], []⟩ := by
  refine ⟨fun h => ?_, fun h => ?_, fun h => ?_, foldl_decodeStep_filter _ _⟩
  · exact foldl_title_eq _ _ h
  · exact foldl_summary_eq _ _ h
  · exact foldl_author_eq _ _ h

/-- C9 witness: a blob not produced by the codec (its title and summary
label lines are absent and one junk line occurs) decodes with title and
summary empty, never failing. -/
theorem decode_lenient_witness :
    (decodeBody ('j' :: 'u' :: 'n' :: 'k' :: '\n' :: authorLabel ++ ['z'])).title = [] ∧
    (decodeBody ('j' :: 'u' :: 'n' :: 'k' :: '\n' :: authorLabel ++ ['z'])).summary = [] :=
  ⟨(decode_lenient _).1 (by decide), (decode_lenient _).2.1 (by decide)⟩

/-! ### Update: target resolution and merge -/

theorem isEmpty_false_of_ne {s : Str} (h : s ≠ []) : s.isEmpty = false := by
  cases s with
  | nil => exact absurd rfl h
  | cons c cs => rfl

theorem jsTruthy_some (s : Str) (h : s ≠ []) : jsTruthy (some s) = true := by
  simp [jsTruthy, isEmpty_false_of_ne h]

theorem resolveUpdateTargetId_with_id (store : List RawRecord) (i : Str) (hi : i ≠ [])
    (q : Option Str) : resolveUpdateTargetId store (some i) q = (.ok i, []) := by
  simp [resolveUpdateTargetId, jsTruthy_some i hi, optStr]

theorem jsOr_eq_mergeFieldSpec (o : Option Str) (prev : Str) :
    jsOr o prev = mergeFieldSpec o prev := by
  cases o with
  | none => simp [jsOr, mergeFieldSpec, jsTruthy]
  | some v =>
    cases v with
    | nil => simp [jsOr, mergeFieldSpec, jsTruthy]
    | cons c cs => simp [jsOr, mergeFieldSpec, jsTruthy, optStr]

/-- C10 (claim theorem): with a non-empty explicit id, `updateSharedSummary`
is independent of the `query` argument — same result and the same store
interactions for any two query values, on any store. -/
theorem update_independent_of_query (store : List RawRecord) (i : Str) (hi : i ≠ [])
    (q1 q2 t s a : Option Str) :
    updateSharedSummary store (some i) q1 t s a = updateSharedSummary store (some i) q2 t s a := by
  unfold updateSharedSummary
  rw [resolveUpdateTargetId_with_id store i hi q1, resolveUpdateTargetId_with_id store i hi q2]

/-- C10 witness: two concrete runs differing only in `query`. -/
theorem update_independent_of_query_witness :
    updateSharedSummary [⟨['7'], 3, encodeBody ['T'] ['S'] ['A']⟩] (some ['7'])
        (some ['q']) (some ['N']) none none =
      updateSharedSummary [⟨['7'], 3, encodeBody ['T'] ['S'] ['A']⟩] (some ['7'])
        none (some ['N']) none none :=
  update_independent_of_query [⟨['7'], 3, encodeBody ['T'] ['S'] ['A']⟩] ['7'] (by decide)
    (some ['q']) none (some ['N']) none none

/-- C3 (claim theorem): in `updateSharedSummary`'s merge, each of the three
fields independently takes the caller-supplied value when it is non-empty
and the previously decoded value otherwise; supplying an empty string
leaves the field unchanged and the operation still succeeds (no error). -/
theorem update_merge_policy (store : List RawRecord) (i : Str) (hi : i ≠ [])
    (found : RawRecord) (hfind : store.find? (fun r => decide (r.id = i)) = some found)
    (title? summary? author? : Option Str) :
    updateSharedSummary store (some i) none title? summary? author? =
      (.ok i, [.getById i, .putBody i (encodeBody
        (mergeFieldSpec title? (decodeBody found.body).title)
        (mergeFieldSpec summary? (decodeBody found.body).summary)
        (mergeFieldSpec author? (decodeBody found.body).author))]) := by
  unfold updateSharedSummary
  rw [resolveUpdateTargetId_with_id store i hi none]
  simp [hfind, jsOr_eq_mergeFieldSpec]

/-- C3 witness: a caller-supplied empty title leaves the stored title
unchanged while the non-empty summary replaces the stored one. -/
theorem update_merge_policy_witness :
    updateSharedSummary [⟨['1'], 5, encodeBody ['T'] ['S'] ['A']⟩] (some ['1']) none
        (some []) (some ['N']) none =
      (.ok ['1'], [.getById ['1'], .putBody ['1'] (encodeBody ['T'] ['N'] ['A'])]) := by
  rw [update_merge_policy [⟨['1'], 5, encodeBody ['T'] ['S'] ['A']⟩] ['1'] (by decide)
    ⟨['1'], 5, encodeBody ['T'] ['S'] ['A']⟩ rfl (some []) (some ['N']) none]
  rfl

/-- C4 (claim theorem): update-target resolution with no explicit id.
With both id and query falsy the resolution fails with the missing-target
error; with a non-empty query, exactly the page records whose body
contains the query case-insensitively are kept, and the single most
recent match (maximal timestamp) is selected after the descending sort;
an empty match set fails with the not-found error. -/
theorem update_resolution_no_id (store : List RawRecord) (id? query? : Option Str)
    (hid : jsTruthy id? = false) (hwf : ∀ r ∈ store, r.id ≠ []) :
    (jsTruthy query? = false →
      resolveUpdateTargetId store id? query? = (.error missingTargetMsg, [])) ∧
    (jsTruthy query? = true →
      (store.filter (fun r => containsCI r.body (optStr query?)) = [] →
        resolveUpdateTargetId store id? query? = (.error noQueryMatchMsg, [.fetchPage])) ∧
      (store.filter (fun r => containsCI r.body (optStr query?)) ≠ [] →
        ∃ c, c ∈ store.filter (fun r => containsCI r.body (optStr query?)) ∧
          (∀ r ∈ store.filter (fun r => containsCI r.body (optStr query?)),
            r.timestamp ≤ c.timestamp) ∧
          resolveUpdateTargetId store id? query? = (.ok c.id, [.fetchPage]))) := by
  refine ⟨fun hq => ?_, fun hq => ⟨fun hm => ?_, fun hm => ?_⟩⟩
  · simp [resolveUpdateTargetId, hid, hq]
  · simp [resolveUpdateTargetId, hid, hq, hm, sortDesc]
  · obtain ⟨c, rest, hcr⟩ := List.exists_cons_of_ne_nil (sortDesc_ne_nil hm)
    obtain ⟨hcm, hmax⟩ := sortDesc_head_max hcr
    have hcid : c.id ≠ [] := hwf c (List.mem_of_mem_filter hcm)
    refine ⟨c, hcm, hmax, ?_⟩
    simp only [resolveUpdateTargetId, hid, hq, Bool.not_false, Bool.and_self, if_true]
    rw [hcr]
    simp [isEmpty_false_of_ne hcid]

/-- C4 witness: on three notes of which only one contains "budget"
(case-insensitively), query resolution selects that note. -/
theorem update_resolution_no_id_witness :
    ∃ c, c ∈ ([⟨['1'], 10, encodeBody ['B', 'u', 'd', 'g', 'e', 't'] ['x'] ['a']⟩,
               ⟨['2'], 20, encodeBody ['t'] ['y'] ['a']⟩,
               ⟨['3'], 5, encodeBody ['z'] ['z'] ['a']⟩] : List RawRecord).filter
        (fun r => containsCI r.body (optStr (some ['b', 'u', 'd', 'g', 'e', 't']))) ∧
      (∀ r ∈ ([⟨['1'], 10, encodeBody ['B', 'u', 'd', 'g', 'e', 't'] ['x'] ['a']⟩,
               ⟨['2'], 20, encodeBody ['t'] ['y'] ['a']⟩,
               ⟨['3'], 5, encodeBody ['z'] ['z'] ['a']⟩] : List RawRecord).filter
        (fun r => containsCI r.body (optStr (some ['b', 'u', 'd', 'g', 'e', 't']))),
        r.timestamp ≤ c.timestamp) ∧
      resolveUpdateTargetId
        [⟨['1'], 10, encodeBody ['B', 'u', 'd', 'g', 'e', 't'] ['x'] ['a']⟩,
         ⟨['2'], 20, encodeBody ['t'] ['y'] ['a']⟩,
         ⟨['3'], 5, encodeBody ['z'] ['z'] ['a']⟩] none (some ['b', 'u', 'd', 'g', 'e', 't']) =
        (.ok c.id, [.fetchPage]) :=
  ((update_resolution_no_id
    [⟨['1'], 10, encodeBody ['B', 'u', 'd', 'g', 'e', 't'] ['x'] ['a']⟩,
     ⟨['2'], 20, encodeBody ['t'] ['y'] ['a']⟩,
     ⟨['3'], 5, encodeBody ['z'] ['z'] ['a']⟩] none (some ['b', 'u', 'd', 'g', 'e', 't'])
    (by decide) (by decide)).2 (by decide)).2 (by decide)

/-! ### Delete resolution and the shared filter pipeline -/

/-- C5 (claim theorem): delete with no explicit id whose filters match zero
records fails with the not-found error and issues no delete call; the
store is unchanged by the calls the operation issued. -/
theorem delete_no_match_no_call (off : Int) (store : List RawRecord) (id? : Option Str)
    (c : Criteria) (hid : jsTruthy id? = false)
    (hfil : applyFilters off store c = .ok []) :
    deleteSharedSummary off store id? c = (.error noFilterMatchMsg, [.fetchPage]) ∧
    applyDeleteCalls store (deleteSharedSummary off store id? c).2 = store := by
  have h1 : deleteSharedSummary off store id? c = (.error noFilterMatchMsg, [.fetchPage]) := by
    simp [deleteSharedSummary, hid, hfil, sortDesc]
  refine ⟨h1, ?_⟩
  rw [h1]
  rfl

/-- C5 witness: one stored record, a date filter that matches nothing. -/
theorem delete_no_match_no_call_witness :
    deleteSharedSummary 0 [⟨['1'], 0, []⟩] none
        ⟨some "1999-01-09".data, none, none, none⟩ =
      (.error noFilterMatchMsg, [.fetchPage]) ∧
    applyDeleteCalls [⟨['1'], 0, []⟩] (deleteSharedSummary 0 [⟨['1'], 0, []⟩] none
        ⟨some "1999-01-09".data, none, none, none⟩).2 = [⟨['1'], 0, []⟩] :=
  delete_no_match_no_call 0 [⟨['1'], 0, []⟩] none
    ⟨some "1999-01-09".data, none, none, none⟩ (by decide) rfl

theorem dayMapResolve_eq_none_iff (s : Str) : dayMapResolve s = none ↔ s ∉ validDayNames := by
  unfold dayMapResolve validDayNames
  split_ifs <;> simp_all

theorem applyFilters_day_none (off : Int) (page : List RawRecord) (c : Criteria)
    (h : c.dayOfWeek = none) :
    applyFilters off page c = .ok (timeStep off c (dateStep c page)) := by
  simp [applyFilters, h, jsTruthy]

/-- C6 (claim theorem): a set `dayOfWeek` that is not one of the seven day
names (case-insensitively) makes both listing and delete resolution fail
with the invalid-day validation error instead of matching nothing, and a
valid name keeps exactly the records whose local weekday index equals the
resolved index (0 = Sunday .. 6 = Saturday). -/
theorem dayOfWeek_validation (off : Int) (page : List RawRecord) (d : Str) (hd : d ≠ [])
    (limit? : Option Int) :
    (dayMapResolve (toLowerStr d) = none ↔ toLowerStr d ∉ validDayNames) ∧
    (dayMapResolve (toLowerStr d) = none →
      getSummariesCore off page ⟨none, some d, limit?, none⟩ = .error (invalidDayMsg d) ∧
      deleteSharedSummary off page none ⟨none, some d, limit?, none⟩ =
        (.error (invalidDayMsg d), [.fetchPage])) ∧
    (∀ i, dayMapResolve (toLowerStr d) = some i →
      applyFilters off page ⟨none, some d, limit?, none⟩ =
        .ok (page.filter (fun r => decide (weekdayLocal off r.timestamp = i)))) := by
  refine ⟨dayMapResolve_eq_none_iff _, fun h => ⟨?_, ?_⟩, fun i hi => ?_⟩
  · simp [getSummariesCore, applyFilters, dateStep, jsTruthy_some d hd, optStr, h, jsTruthy, hd]
  · simp [deleteSharedSummary, applyFilters, dateStep, jsTruthy_some d hd, optStr, h, jsTruthy, hd]
  · simp [applyFilters, dateStep, timeStep, jsTruthy_some d hd, optStr, hi, jsTruthy, hd]

/-- C6 witness: "funday" is rejected with the validation error while
"Monday" resolves and filters. -/
theorem dayOfWeek_validation_witness :
    getSummariesCore 0 [] ⟨none, some "funday".data, none, none⟩ =
      .error (invalidDayMsg "funday".data) ∧
    applyFilters 0 [] ⟨none, some "monday".data, none, none⟩ = .ok [] :=
  ⟨((dayOfWeek_validation 0 [] "funday".data (by decide) none).2.1 (by decide)).1,
   by rw [(dayOfWeek_validation 0 [] "monday".data (by decide) none).2.2 1 (by decide)]; rfl⟩

/-- C7 (claim theorem): with a timeRange carrying non-empty start and end,
the engine keeps a record exactly when its zero-padded local "HH:MM"
string lies within [start, end] under lexicographic string comparison,
both boundaries inclusive. -/
theorem timeRange_inclusive (off : Int) (page : List RawRecord) (tr : TimeRange)
    (hs : tr.start ≠ []) (he : tr.stop ≠ []) (r : RawRecord) :
    applyFilters off page ⟨none, none, none, some tr⟩ = .ok (page.filter (timeKeep off tr)) ∧
    (r ∈ page.filter (timeKeep off tr) ↔ r ∈ page ∧
      (strLe tr.start (hhmmLocal off r.timestamp) = true ∧
       strLe (hhmmLocal off r.timestamp) tr.stop = true)) := by
  constructor
  · simp [applyFilters, dateStep, timeStep, jsTruthy,
      isEmpty_false_of_ne hs, isEmpty_false_of_ne he]
  · rw [List.mem_filter]
    simp [timeKeep, Bool.and_eq_true]

/-- C7 witness: a 09:00..10:00 window includes the 09:30 record. -/
theorem timeRange_inclusive_witness :
    applyFilters 0 [⟨['1'], 34200000, []⟩, ⟨['2'], 32340000, []⟩, ⟨['3'], 36060000, []⟩]
        ⟨none, none, none, some ⟨"09:00".data, "10:00".data⟩⟩ =
      .ok ([⟨['1'], 34200000, []⟩, ⟨['2'], 32340000, []⟩, ⟨['3'], 36060000, []⟩].filter
        (timeKeep 0 ⟨"09:00".data, "10:00".data⟩)) ∧
    (⟨['1'], 34200000, []⟩ ∈
        ([⟨['1'], 34200000, []⟩, ⟨['2'], 32340000, []⟩, ⟨['3'], 36060000, []⟩] :
          List RawRecord).filter (timeKeep 0 ⟨"09:00".data, "10:00".data⟩) ↔
      (⟨['1'], 34200000, []⟩ : RawRecord) ∈
        ([⟨['1'], 34200000, []⟩, ⟨['2'], 32340000, []⟩, ⟨['3'], 36060000, []⟩] :
          List RawRecord) ∧
      (strLe "09:00".data (hhmmLocal 0 (34200000 : Int)) = true ∧
       strLe (hhmmLocal 0 (34200000 : Int)) "10:00".data = true)) :=
  timeRange_inclusive 0 [⟨['1'], 34200000, []⟩, ⟨['2'], 32340000, []⟩, ⟨['3'], 36060000, []⟩]
    ⟨"09:00".data, "10:00".data⟩ (by decide) (by decide) ⟨['1'], 34200000, []⟩

/-- C8 (claim theorem): after the filter predicates, the surviving records
are sorted by timestamp descending with ties in original relative order
(stable sort), and a positive limit returns exactly the first limit
records of that order. -/
theorem list_sort_limit (off : Int) (page : List RawRecord) (c : Criteria) (l : Int)
    (kept : List RawRecord) (hfil : applyFilters off page c = .ok kept)
    (hlim : c.limit = some l) (hl : 0 < l) :
    getSummariesCore off page c = .ok ((sortDesc kept).take l.toNat) ∧
    (sortDesc kept).Sorted tsGE ∧
    (∀ t : Int, (sortDesc kept).filter (fun r => decide (r.timestamp = t)) =
      kept.filter (fun r => decide (r.timestamp = t))) := by
  refine ⟨?_, sortDesc_sorted kept, fun t => sortDesc_filter_ts t kept⟩
  have hcond : l ≠ 0 ∧ l > 0 := ⟨by omega, hl⟩
  simp [getSummariesCore, hfil, hlim, hcond]

/-- C8 witness: limit 2 over five matching records returns the two most
recent in descending order. -/
theorem list_sort_limit_witness :
    getSummariesCore 0 [⟨['1'], 10, []⟩, ⟨['2'], 50, []⟩, ⟨['3'], 30, []⟩,
        ⟨['4'], 40, []⟩, ⟨['5'], 20, []⟩] ⟨none, none, some 2, none⟩ =
      .ok ((sortDesc [⟨['1'], 10, []⟩, ⟨['2'], 50, []⟩, ⟨['3'], 30, []⟩,
        ⟨['4'], 40, []⟩, ⟨['5'], 20, []⟩]).take (2 : Int).toNat) ∧
    (sortDesc [⟨['1'], 10, []⟩, ⟨['2'], 50, []⟩, ⟨['3'], 30, []⟩,
        ⟨['4'], 40, []⟩, ⟨['5'], 20, []⟩]).Sorted tsGE ∧
    (∀ t : Int, (sortDesc [⟨['1'], 10, []⟩, ⟨['2'], 50, []⟩, ⟨['3'], 30, []⟩,
        ⟨['4'], 40, []⟩, ⟨['5'], 20, []⟩]).filter (fun r => decide (r.timestamp = t)) =
      [⟨['1'], 10, []⟩, ⟨['2'], 50, []⟩, ⟨['3'], 30, []⟩,
        ⟨['4'], 40, []⟩, ⟨['5'], 20, []⟩].filter (fun r => decide (r.timestamp = t))) :=
  list_sort_limit 0 [⟨['1'], 10, []⟩, ⟨['2'], 50, []⟩, ⟨['3'], 30, []⟩,
    ⟨['4'], 40, []⟩, ⟨['5'], 20, []⟩] ⟨none, none, some 2, none⟩ 2
    [⟨['1'], 10, []⟩, ⟨['2'], 50, []⟩, ⟨['3'], 30, []⟩, ⟨['4'], 40, []⟩, ⟨['5'], 20, []⟩]
    rfl rfl (by decide)

/-! ### The limit argument -/

/-- C1 counterexample: criteria with limit ≤ 0 do NOT always fail with the
limit validation error.  Delete resolution with limit -1 succeeds (it
falls back to the default of 1 and deletes), and listing with limit 0
succeeds with no truncation, because JS `limit && ...` is false at 0. -/
theorem limit_validation_counterexample :
    deleteSharedSummary 0 [⟨['1'], 0, []⟩] none ⟨none, none, some (-1), none⟩ =
      (.ok ['1'], [.fetchPage, .deleteById ['1']]) ∧
    getSummariesCore 0 [⟨['1'], 0, []⟩] ⟨none, none, some 0, none⟩ = .ok [⟨['1'], 0, []⟩] :=
  ⟨rfl, rfl⟩

/-- C1 amended (claim theorem): `getSummaries` fails with the limit
validation error exactly for a negative limit (a non-zero value below 1);
a limit of 0 is falsy in JS and is treated as an absent limit (no cap, no
error); delete-target resolution never validates the limit — any limit
≤ 0 behaves as the absent limit, which defaults to 1. -/
theorem limit_validation_amended (off : Int) (page : List RawRecord) (date? : Option Str)
    (tr? : Option TimeRange) (l : Int) :
    (l < 0 → getSummariesCore off page ⟨date?, none, some l, tr?⟩ = .error limitErrMsg) ∧
    getSummariesCore off page ⟨date?, none, some 0, tr?⟩ =
      getSummariesCore off page ⟨date?, none, none, tr?⟩ ∧
    (l ≤ 0 → deleteSharedSummary off page none ⟨date?, none, some l, tr?⟩ =
      deleteSharedSummary off page none ⟨date?, none, none, tr?⟩) := by
  refine ⟨fun hl => ?_, ?_, fun hl => ?_⟩
  · have h1 : ¬(l ≠ 0 ∧ l > 0) := by omega
    have h2 : l ≠ 0 ∧ l < 1 := ⟨by omega, by omega⟩
    simp [getSummariesCore, applyFilters_day_none off page ⟨date?, none, some l, tr?⟩ rfl,
      h1, h2]
    omega
  · simp [getSummariesCore, applyFilters_day_none off page ⟨date?, none, some 0, tr?⟩ rfl,
      applyFilters_day_none off page ⟨date?, none, none, tr?⟩ rfl, timeStep, dateStep]
  · have h3 : ¬(l ≠ 0 ∧ 0 < l) := by omega
    simp [deleteSharedSummary, jsTruthy,
      applyFilters_day_none off page ⟨date?, none, some l, tr?⟩ rfl,
      applyFilters_day_none off page ⟨date?, none, none, tr?⟩ rfl,
      jsNumTruthy, h3, timeStep, dateStep]

/-- C1 amended witness: the three clauses at limit -1 on a one-record page. -/
theorem limit_validation_amended_witness :
    getSummariesCore 0 [⟨['1'], 0, []⟩] ⟨none, none, some (-1), none⟩ = .error limitErrMsg ∧
    deleteSharedSummary 0 [⟨['1'], 0, []⟩] none ⟨none, none, some (-1), none⟩ =
      deleteSharedSummary 0 [⟨['1'], 0, []⟩] none ⟨none, none, none, none⟩ :=
  ⟨(limit_validation_amended 0 [⟨['1'], 0, []⟩] none none (-1)).1 (by decide),
   (limit_validation_amended 0 [⟨['1'], 0, []⟩] none none (-1)).2.2 (by decide)⟩
